import Mathlib

/-!
Shallow embedding of the reviewed client-side layer:
 - the maintenance-notice feature-flag resolver (src/unnamed/part_000,
   `maintenanceNoticeFlag.decide`),
 - the Ollama model-manager panel operations
   (src/frontend/src/components/AuthProvider.tsx: `fetchServerStatus`,
   `fetchModels`, `pullModel`, `deleteModel`, `formatFileSize`, and the
   open-transition effect),
 - the auth-state-change handler of the session context
   (src/frontend/src/components/AuthProvider.tsx, `onAuthStateChange`).

Asynchronous remote calls are embedded by an explicit environment that fixes
the outcome of each endpoint (success payload, non-success HTTP status, or
thrown transport error); each operation is a pure function from environment
and component state to the new state together with the list of external
requests it issued, in order.  Floating-point expressions of the source are
embedded as follows: for byte counts below 2^53 the scaling quotient of
`formatFileSize` is exact (a power-of-two denominator) and `toFixed(2)`
rounds the exact value half-up per the ECMAScript algorithm; the unit index
`Math.floor(Math.log(bytes) / Math.log(1024))` coincides with
`Nat.log 1024 bytes` for byte counts below 1024 ^ 4 and on integer inputs
never falls below it, but just below the higher powers of 1024 the double
ratio can round up across the boundary and exceed the exact floor, so the
out-of-table statements quantify over every index at least the exact
floor rather than fixing one index.
-/

/-! ## Maintenance-notice flag resolver (src/unnamed/part_000) -/

/-- A value fetched from the edge-config store for one key: the key can be
absent (`missing`, JS `undefined`), or hold a null, boolean, number or
string. -/
inductive ConfigValue where
  | missing
  | null
  | boolean (b : Bool)
  | num (n : Int)
  | str (s : String)
deriving DecidableEq, Repr

/-- JavaScript truthiness of a fetched config value, as tested by the
negated guard on the enabled flag in the source: `undefined`, `null`,
`false`, `0` and the empty string are falsy. -/
def truthy : ConfigValue → Bool
  | ConfigValue.missing => false
  | ConfigValue.null => false
  | ConfigValue.boolean b => b
  | ConfigValue.num n => n != 0
  | ConfigValue.str s => s != ""

/-- Semantics of `new Date(v).getTime()` followed by the `isNaN` test of the
source: `some t` when the constructed date is valid with epoch value `t`,
`none` when it is invalid (NaN).  `new Date(undefined)` is invalid;
`new Date(null)` is the epoch; numbers and booleans coerce to a numeric
epoch value; string parsing is engine-defined, so it is a parameter
`parseStr` of the whole development. -/
def jsDateParse (parseStr : String → Option Int) : ConfigValue → Option Int
  | ConfigValue.missing => none
  | ConfigValue.null => some 0
  | ConfigValue.boolean b => some (if b then 1 else 0)
  | ConfigValue.num n => some n
  | ConfigValue.str s => parseStr s

/-- Outcome of the batched `getAll` call on the three maintenance keys:
either the call throws (transport/config-store failure) or it yields a value
(possibly `missing`) for each of the enabled flag, start time and end
time. -/
inductive FetchOutcome where
  | throws
  | values (enabled startTime endTime : ConfigValue)
deriving DecidableEq, Repr

/-- Ambient environment of one evaluation of the resolver: whether
`process.env.EDGE_CONFIG` is set, and what the `getAll` call does. -/
structure EdgeEnv where
  configured : Bool
  fetch : FetchOutcome
deriving DecidableEq, Repr

/-- The resolver result type `IMaintenanceNotice`: either disabled, or
enabled with two timestamps (epoch values of the two `Date`s). -/
inductive IMaintenanceNotice where
  | disabled
  | enabled (startTime endTime : Int)
deriving DecidableEq, Repr

/-- Embedding of `maintenanceNoticeFlag.decide` (src/unnamed/part_000 lines
18-58).  The `try`/`catch` of the source converts the thrown `getAll`
failure and the thrown invalid-timestamp error into the disabled variant;
the unset `EDGE_CONFIG` check short-circuits before any fetch. -/
def maintenanceDecide (parseStr : String → Option Int) (env : EdgeEnv) :
    IMaintenanceNotice :=
  if !env.configured then IMaintenanceNotice.disabled
  else
    match env.fetch with
    | FetchOutcome.throws => IMaintenanceNotice.disabled
    | FetchOutcome.values en st et =>
      if !truthy en then IMaintenanceNotice.disabled
      else
        match jsDateParse parseStr st, jsDateParse parseStr et with
        | some s, some e => IMaintenanceNotice.enabled s e
        | some _, none => IMaintenanceNotice.disabled
        | none, some _ => IMaintenanceNotice.disabled
        | none, none => IMaintenanceNotice.disabled

/-- An evaluation environment on which the source hits a failure path:
the config source is unset, the batched fetch throws, or (when values are
fetched) the start or end value is missing or fails to parse as a date. -/
def failureEnv (parseStr : String → Option Int) (env : EdgeEnv) : Bool :=
  !env.configured ||
    (match env.fetch with
     | FetchOutcome.throws => true
     | FetchOutcome.values en st et =>
       (match en with
        | ConfigValue.missing => true
        | _ => false) ||
       (jsDateParse parseStr st).isNone || (jsDateParse parseStr et).isNone)

/-! ## Ollama model-manager panel
(src/frontend/src/components/AuthProvider.tsx, second document) -/

/-- Model descriptor returned by the listing endpoint. -/
structure OllamaModel where
  id : String
  name : String
  display_name : String
  size : Nat
  modified_at : String
  digest : String
deriving DecidableEq, Repr

/-- Payload of the status endpoint. -/
structure ServerStatus where
  status : String
  accessible : Bool
  base_url : String
deriving DecidableEq, Repr

/-- Outcome of one `fetch` call: `ok` with the parsed JSON payload
(`response.ok` true), a non-success HTTP response (`response.ok` false), or
a thrown transport error. -/
inductive FetchResult (α : Type) where
  | ok (v : α)
  | httpError
  | transportError
deriving DecidableEq, Repr

/-- Environment of one panel interaction: the behaviour of each of the four
REST endpoints. -/
structure PanelEnv where
  statusResp : FetchResult ServerStatus
  modelsResp : FetchResult (List OllamaModel)
  pullResp : FetchResult Unit
  deleteResp : FetchResult Unit
deriving DecidableEq, Repr

/-- The component state touched by the panel operations. -/
structure PanelState where
  models : List OllamaModel
  serverStatus : Option ServerStatus
  loading : Bool
  pullingModel : Option String
  deletingModel : Option String
deriving DecidableEq, Repr

/-- External requests a panel operation can issue, in issue order. -/
inductive Request where
  | statusGet
  | modelsGet
  | pullPost (name : String)
  | deleteHttp (name : String)
  | modelAdded (id : String)
deriving DecidableEq, Repr

instance : BEq Request := instBEqOfDecidableEq

/-- Embedding of `fetchServerStatus` (AuthProvider.tsx lines 177-189):
issues the status GET; on `response.ok` it stores the payload and returns
its `accessible` field; on a non-success response or a caught transport
error it leaves the stored status untouched and returns `false`. -/
def fetchServerStatus (env : PanelEnv) (st : PanelState) :
    PanelState × Bool × List Request :=
  match env.statusResp with
  | FetchResult.ok s => ({ st with serverStatus := some s }, s.accessible, [Request.statusGet])
  | FetchResult.httpError => (st, false, [Request.statusGet])
  | FetchResult.transportError => (st, false, [Request.statusGet])

/-- Whether the status probe of `env` reports the server reachable: true
exactly when the status fetch succeeds and its payload says accessible. -/
def statusAccessible (env : PanelEnv) : Bool :=
  match env.statusResp with
  | FetchResult.ok s => s.accessible
  | FetchResult.httpError => false
  | FetchResult.transportError => false

/-- Embedding of `fetchModels` (AuthProvider.tsx lines 191-214): sets
`loading`, runs the status fetch, and when it reports unreachable clears
the model list without touching the listing endpoint; otherwise issues the
listing GET, replacing the list on success and clearing it on a non-success
response or a caught error.  The `finally` clears `loading` on every
path. -/
def fetchModels (env : PanelEnv) (st : PanelState) : PanelState × List Request :=
  let st1 := { st with loading := true }
  let r := fetchServerStatus env st1
  let st2 := r.1
  let accessible := r.2.1
  let tr := r.2.2
  if !accessible then
    ({ st2 with models := [], loading := false }, tr)
  else
    match env.modelsResp with
    | FetchResult.ok list => ({ st2 with models := list, loading := false }, tr ++ [Request.modelsGet])
    | FetchResult.httpError => ({ st2 with models := [], loading := false }, tr ++ [Request.modelsGet])
    | FetchResult.transportError => ({ st2 with models := [], loading := false }, tr ++ [Request.modelsGet])

/-- Embedding of the open-transition effect (AuthProvider.tsx lines
284-288): when `isOpen` becomes true the panel runs `fetchModels`. -/
def openPanel (env : PanelEnv) (st : PanelState) : PanelState × List Request :=
  fetchModels env st

/-- Embedding of `pullModel` (AuthProvider.tsx lines 216-243): marks the
name as pulling, issues the POST; on success re-runs `fetchModels` and
notifies the `onModelAdded` callback with the namespaced id; on a
non-success response or a caught transport error it only logs.  The
`finally` clears the pulling marker on every path. -/
def pullModel (name : String) (env : PanelEnv) (st : PanelState) :
    PanelState × List Request :=
  let st1 := { st with pullingModel := some name }
  match env.pullResp with
  | FetchResult.ok _ =>
    let r := fetchModels env st1
    ({ r.1 with pullingModel := none },
      Request.pullPost name :: (r.2 ++ [Request.modelAdded ("ollama/" ++ name)]))
  | FetchResult.httpError => ({ st1 with pullingModel := none }, [Request.pullPost name])
  | FetchResult.transportError => ({ st1 with pullingModel := none }, [Request.pullPost name])

/-- Embedding of `deleteModel` (AuthProvider.tsx lines 245-268): marks the
name as deleting, issues the DELETE; on success re-runs `fetchModels`; on a
non-success response or a caught transport error it only logs.  The
`finally` clears the deleting marker on every path. -/
def deleteModel (name : String) (env : PanelEnv) (st : PanelState) :
    PanelState × List Request :=
  let st1 := { st with deletingModel := some name }
  match env.deleteResp with
  | FetchResult.ok _ =>
    let r := fetchModels env st1
    ({ r.1 with deletingModel := none }, Request.deleteHttp name :: r.2)
  | FetchResult.httpError => ({ st1 with deletingModel := none }, [Request.deleteHttp name])
  | FetchResult.transportError => ({ st1 with deletingModel := none }, [Request.deleteHttp name])

/-! ## Size formatting (`formatFileSize`, AuthProvider.tsx lines 270-276) -/

/-- The unit table of the source, four entries: B, KB, MB, GB. -/
def sizes : List String := ["B", "KB", "MB", "GB"]

/-- Exact value of `Math.round`-free `toFixed(2)` on the scaled quotient:
for a byte count `b` and unit index `i` the source shows
`parseFloat((b / 1024^i).toFixed(2))`; `toFixed(2)` rounds `b / 1024^i` to
the nearest hundredth, half away from zero, which for the nonnegative exact
quotient is `⌊100 * b / 1024^i + 1/2⌋ = (200 * b + 1024^i) / (2 * 1024^i)`
in integer division. -/
def round2Nat (b i : Nat) : Nat :=
  (200 * b + 1024 ^ i) / (2 * 1024 ^ i)

/-- Decimal rendering of a rounded-to-hundredths value `n / 100` the way
`parseFloat(x.toFixed(2))` followed by number-to-string prints it: trailing
zeros of the two-decimal fraction are dropped, and a whole number carries
no decimal point. -/
def renderNum (n : Nat) : String :=
  let ip := n / 100
  let fp := n % 100
  if fp = 0 then toString ip
  else if fp % 10 = 0 then toString ip ++ "." ++ toString (fp / 10)
  else if fp < 10 then toString ip ++ ".0" ++ toString fp
  else toString ip ++ "." ++ toString fp

/-- Embedding of `formatFileSize` (AuthProvider.tsx lines 270-276).  The
unit index of the source is `Math.floor(Math.log(bytes) / Math.log(1024))`;
for byte counts below 1024 ^ 4 the double ratio of an integer input cannot
sit within rounding distance of a wrong integer (and the exact powers of
1024 compute exactly), so there the index equals `Nat.log 1024 bytes`, the
index this definition uses.  Beyond that range the double floor can exceed
`Nat.log 1024 bytes` just below a power of 1024; statements about that
range go through `formatFileSizeWithIdx` below.  `sizes[i]` beyond the
table is JS `undefined` and string concatenation renders it as
"undefined". -/
def formatFileSize (bytes : Nat) : String :=
  if bytes = 0 then "0 B"
  else
    let i := Nat.log 1024 bytes
    renderNum (round2Nat bytes i) ++ " " ++ sizes.getD i ("undefined")

/-- The body of `formatFileSize` with the computed unit index as an
explicit argument: `idx` stands for whatever
`Math.floor(Math.log(bytes) / Math.log(1024))` evaluated to, so statements
quantified over every index the double computation can produce are made
against this definition.  On integer inputs that double floor is never
below `Nat.log 1024 bytes` (a downward error would need the input within
rounding distance above a power of 1024, impossible off the exact powers,
which compute exactly), so every possible index satisfies
`Nat.log 1024 bytes ≤ idx`. -/
def formatFileSizeWithIdx (bytes idx : Nat) : String :=
  if bytes = 0 then "0 B"
  else renderNum (round2Nat bytes idx) ++ " " ++ sizes.getD idx ("undefined")

/-! ## Auth-state-change handler (AuthProvider.tsx lines 51-88) -/

/-- The auth events distinguished by the `switch` of the handler. -/
inductive AuthEvent where
  | signedIn
  | signedOut
  | tokenRefreshed
  | mfaChallengeVerified
  | other (tag : String)
deriving DecidableEq, Repr

/-- The user carried by a session: id and account-creation timestamp, the
two fields the handler reads. -/
structure AuthUser where
  id : String
  created_at : String
deriving DecidableEq, Repr

/-- A session as seen by the handler: an optional user. -/
structure AuthSession where
  user : Option AuthUser
deriving DecidableEq, Repr

/-- Side effects the handler performs, in order: state updates and the
provisioning call `checkAndInstallSunaAgent(userId, createdAt)`. -/
inductive AuthEffect where
  | setSession (s : Option AuthSession)
  | setUser (u : Option AuthUser)
  | clearLoading
  | provision (userId createdAt : String)
deriving DecidableEq, Repr

/-- Whether an effect is the provisioning call. -/
def isProvision : AuthEffect → Bool
  | AuthEffect.provision _ _ => true
  | _ => false

/-- Embedding of the `onAuthStateChange` callback body (AuthProvider.tsx
lines 52-87): it stores the new session and its user (or null), clears the
loading flag when it was set, and on a `SIGNED_IN` event carrying a user
invokes provisioning with the id and creation timestamp of that user.
Other events only log. -/
def onAuthStateChange (isLoading : Bool) (event : AuthEvent)
    (newSession : Option AuthSession) : List AuthEffect :=
  [AuthEffect.setSession newSession,
   AuthEffect.setUser (match newSession with
     | some s => s.user
     | none => none)] ++
  (if isLoading then [AuthEffect.clearLoading] else []) ++
  (match event with
   | AuthEvent.signedIn =>
     match newSession with
     | some s =>
       match s.user with
       | some u => [AuthEffect.provision u.id u.created_at]
       | none => []
     | none => []
   | _ => [])

/-! ## Theorems: maintenance-notice flag resolver -/

/-- Claim C1: every value returned by the maintenance-flag resolver
satisfies the invariant: the enabled variant carries two timestamps that
parsed successfully (non-NaN) from the fetched values, and whenever the
start-time or end-time value of a fetched configuration is malformed or
missing, the resolver returns the disabled variant. -/
theorem maintenance_enabled_wellformed (p : String → Option Int) (env : EdgeEnv)
    (en st et : ConfigValue) :
    (∀ s e, maintenanceDecide p env = IMaintenanceNotice.enabled s e →
      ∃ en1 st1 et1,
        env.configured = true ∧
        env.fetch = FetchOutcome.values en1 st1 et1 ∧
        jsDateParse p st1 = some s ∧ jsDateParse p et1 = some e) ∧
    (env.fetch = FetchOutcome.values en st et →
      (jsDateParse p st = none ∨ jsDateParse p et = none) →
      maintenanceDecide p env = IMaintenanceNotice.disabled) := by
  obtain ⟨cfg, fo⟩ := env
  constructor
  · intro s e hres
    cases cfg
    · simp [maintenanceDecide] at hres
    · cases fo with
      | throws => simp [maintenanceDecide] at hres
      | values en1 st1 et1 =>
        refine ⟨en1, st1, et1, rfl, rfl, ?_⟩
        by_cases ht : truthy en1
        · cases hst : jsDateParse p st1 <;> cases het : jsDateParse p et1 <;>
            simp [maintenanceDecide, ht, hst, het] at hres
          exact ⟨by rw [hres.1], by rw [hres.2]⟩
        · simp [maintenanceDecide, ht] at hres
  · rintro rfl hparse
    cases cfg
    · simp [maintenanceDecide]
    · by_cases ht : truthy en
      · rcases hparse with hp | hp
        · cases het : jsDateParse p et <;>
            simp [maintenanceDecide, ht, hp, het]
        · cases hst : jsDateParse p st <;>
            simp [maintenanceDecide, ht, hp, hst]
      · simp [maintenanceDecide, ht]

/-- Witness for C1: with a string parser that rejects everything and a
configuration whose start and end values are missing, the resolver yields
the disabled variant. -/
theorem maintenance_enabled_wellformed_witness :
    maintenanceDecide (fun _ => none)
      ⟨true, FetchOutcome.values (ConfigValue.boolean true)
        ConfigValue.missing ConfigValue.missing⟩ =
      IMaintenanceNotice.disabled :=
  (maintenance_enabled_wellformed (fun _ => none)
    ⟨true, FetchOutcome.values (ConfigValue.boolean true)
      ConfigValue.missing ConfigValue.missing⟩
    (ConfigValue.boolean true) ConfigValue.missing ConfigValue.missing).2
    rfl (Or.inl rfl)

/-- Claim C6: the resolver is total with respect to failures: on every
failure-shaped environment (config source unset, batched fetch throws, a
key missing, or a timestamp value failing to parse) evaluation returns the
disabled variant instead of propagating the failure. -/
theorem maintenance_total_on_failure (p : String → Option Int) (env : EdgeEnv)
    (h : failureEnv p env = true) :
    maintenanceDecide p env = IMaintenanceNotice.disabled := by
  obtain ⟨cfg, fo⟩ := env
  cases cfg
  · simp [maintenanceDecide]
  · cases fo with
    | throws => simp [maintenanceDecide]
    | values en st et =>
      simp only [failureEnv, Bool.not_true, Bool.false_or] at h
      by_cases ht : truthy en
      · have hparse : (jsDateParse p st).isNone || (jsDateParse p et).isNone := by
          cases en <;> simp_all [truthy]
        rcases Bool.or_eq_true_iff.mp hparse with hp | hp
        · cases het : jsDateParse p et <;>
            simp [maintenanceDecide, ht, Option.isNone_iff_eq_none.mp hp, het]
        · cases hst : jsDateParse p st <;>
            simp [maintenanceDecide, ht, Option.isNone_iff_eq_none.mp hp, hst]
      · simp [maintenanceDecide, ht]

/-- Witness for C6: an environment with the config source unset is a
failure environment and resolves to disabled. -/
theorem maintenance_total_on_failure_witness :
    maintenanceDecide (fun _ => some 0)
      ⟨false, FetchOutcome.throws⟩ = IMaintenanceNotice.disabled :=
  maintenance_total_on_failure (fun _ => some 0) ⟨false, FetchOutcome.throws⟩ rfl

/-- Claim C7: whenever the fetched enabled flag is falsy the resolver
returns the disabled variant, whatever the start-time and end-time values
are and however strings parse as dates. -/
theorem maintenance_falsy_disabled (p : String → Option Int) (cfg : Bool)
    (en st et : ConfigValue) (h : truthy en = false) :
    maintenanceDecide p ⟨cfg, FetchOutcome.values en st et⟩ =
      IMaintenanceNotice.disabled := by
  cases cfg
  · simp [maintenanceDecide]
  · simp [maintenanceDecide, h]

/-- Witness for C7: a false boolean enabled flag yields disabled even
though both timestamp values parse as valid dates. -/
theorem maintenance_falsy_disabled_witness :
    maintenanceDecide (fun _ => some 7) ⟨true,
      FetchOutcome.values (ConfigValue.boolean false)
        (ConfigValue.str ("2024-01-01")) (ConfigValue.str ("2024-01-02"))⟩ =
      IMaintenanceNotice.disabled :=
  maintenance_falsy_disabled (fun _ => some 7) true (ConfigValue.boolean false)
    (ConfigValue.str ("2024-01-01")) (ConfigValue.str ("2024-01-02")) rfl

/-! ## Theorems: model-manager panel -/

/-- Helper: the requests issued by one run of `fetchModels` are the status
GET alone when the probe reports unreachable, and the status GET followed
by the listing GET otherwise. -/
theorem fetchModels_trace (env : PanelEnv) (st : PanelState) :
    (fetchModels env st).2 =
      if statusAccessible env then [Request.statusGet, Request.modelsGet]
      else [Request.statusGet] := by
  unfold fetchModels fetchServerStatus statusAccessible
  cases env.statusResp with
  | ok s =>
    cases ha : s.accessible <;> cases env.modelsResp <;> simp [ha]
  | httpError => simp
  | transportError => simp

/-- Helper: when the status probe reports unreachable, `fetchModels` leaves
the model list empty. -/
theorem fetchModels_models_empty (env : PanelEnv) (st : PanelState)
    (h : statusAccessible env = false) :
    (fetchModels env st).1.models = [] := by
  unfold fetchModels fetchServerStatus
  unfold statusAccessible at h
  cases hs : env.statusResp with
  | ok s =>
    rw [hs] at h
    have h2 : s.accessible = false := h
    simp [h2]
  | httpError => simp
  | transportError => simp

/-- Claim C2: on every open transition of the panel in which the status
probe reports unreachable (payload says not accessible, non-success
response, or transport failure), the listing endpoint is not invoked and
the displayed model set is the empty list. -/
theorem openPanel_unreachable (env : PanelEnv) (st : PanelState)
    (h : statusAccessible env = false) :
    (openPanel env st).1.models = [] ∧
      Request.modelsGet ∉ (openPanel env st).2 := by
  constructor
  · exact fetchModels_models_empty env st h
  · rw [openPanel, fetchModels_trace, h]
    simp

/-- Witness for C2: opening the panel against a status endpoint that
returns a non-success response clears the models and issues no listing
GET. -/
theorem openPanel_unreachable_witness :
    (openPanel
      ⟨FetchResult.httpError, FetchResult.ok [], FetchResult.ok (), FetchResult.ok ()⟩
      ⟨[], none, false, none, none⟩).1.models = [] ∧
    Request.modelsGet ∉ (openPanel
      ⟨FetchResult.httpError, FetchResult.ok [], FetchResult.ok (), FetchResult.ok ()⟩
      ⟨[], none, false, none, none⟩).2 :=
  openPanel_unreachable
    ⟨FetchResult.httpError, FetchResult.ok [], FetchResult.ok (), FetchResult.ok ()⟩
    ⟨[], none, false, none, none⟩ rfl

/-- Claim C3: every execution of the pull operation ends with the in-flight
pulling marker cleared, whatever the POST outcome and whatever the
subsequent listing refresh does. -/
theorem pullModel_clears_marker (name : String) (env : PanelEnv)
    (st : PanelState) :
    (pullModel name env st).1.pullingModel = none := by
  unfold pullModel
  cases env.pullResp <;> simp

/-- A panel state before an interaction: empty model list, no stored
status, no in-flight markers. -/
def emptyPanelState : PanelState :=
  { models := [], serverStatus := none, loading := false,
    pullingModel := none, deletingModel := none }

/-- An endpoint environment in which the DELETE succeeds but the status
probe of the subsequent refresh returns a non-success response. -/
def envDeleteOkStatusDown : PanelEnv :=
  { statusResp := FetchResult.httpError, modelsResp := FetchResult.ok [],
    pullResp := FetchResult.ok (), deleteResp := FetchResult.ok () }

/-- Counterexample to C4 as stated: a delete whose DELETE request succeeds
but whose refresh hits a failing status probe issues zero GETs to the
models endpoint, not exactly one. -/
theorem deleteModel_single_listing_counterexample :
    envDeleteOkStatusDown.deleteResp = FetchResult.ok () ∧
    ((deleteModel ("llama3") envDeleteOkStatusDown emptyPanelState).2.count
        Request.modelsGet ≠ 1) := by
  constructor
  · rfl
  · decide

/-- Claim C4 amended: a delete whose DELETE request succeeds triggers
exactly one listing refresh; the refresh issues the GET to the models
endpoint exactly once when its status probe reports reachable and not at
all otherwise. -/
theorem deleteModel_listing_refresh (name : String) (env : PanelEnv)
    (st : PanelState) (h : env.deleteResp = FetchResult.ok ()) :
    (deleteModel name env st).2.count Request.modelsGet =
      (if statusAccessible env then 1 else 0) := by
  unfold deleteModel
  rw [h]
  have htr := fetchModels_trace env { st with deletingModel := some name }
  simp only []
  rw [htr]
  cases statusAccessible env <;> simp [List.count_cons]

/-- A status payload reporting the server reachable. -/
def runningStatus : ServerStatus :=
  { status := ("running"), accessible := true,
    base_url := ("http://localhost:11434") }

/-- An endpoint environment in which every endpoint succeeds and the
status payload reports the server reachable. -/
def envAllOk : PanelEnv :=
  { statusResp := FetchResult.ok runningStatus, modelsResp := FetchResult.ok [],
    pullResp := FetchResult.ok (), deleteResp := FetchResult.ok () }

/-- Witness for C4 amended: with every endpoint succeeding and the server
reachable, a successful delete issues the models GET exactly once. -/
theorem deleteModel_listing_refresh_witness :
    (deleteModel ("llama3") envAllOk emptyPanelState).2.count Request.modelsGet =
      (if statusAccessible envAllOk then 1 else 0) :=
  deleteModel_listing_refresh ("llama3") envAllOk emptyPanelState rfl

/-- A panel state still displaying the stale reachable status of an
earlier successful poll. -/
def stateWithStaleStatus : PanelState :=
  { models := [], serverStatus := some runningStatus, loading := false,
    pullingModel := none, deletingModel := none }

/-- Counterexample to C5 as stated: after a status poll that ends in a
non-success response, the displayed status is whatever the earlier poll
left behind (the stale reachable status is retained in one start state and
absent in another), so the displayed value after a poll is not a function
of that poll alone. -/
theorem fetchServerStatus_cached_counterexample :
    (fetchServerStatus envDeleteOkStatusDown stateWithStaleStatus).1.serverStatus =
      some runningStatus ∧
    (fetchServerStatus envDeleteOkStatusDown emptyPanelState).1.serverStatus = none ∧
    ¬ ∀ (env : PanelEnv) (st st2 : PanelState),
        (fetchServerStatus env st).1.serverStatus =
          (fetchServerStatus env st2).1.serverStatus := by
  refine ⟨rfl, rfl, fun hall => ?_⟩
  have := hall envDeleteOkStatusDown stateWithStaleStatus emptyPanelState
  simp [fetchServerStatus, envDeleteOkStatusDown, stateWithStaleStatus,
    emptyPanelState] at this

/-- Claim C5 amended: the stored server status is replaced by the payload
on every successful poll, and that poll returns the payload reachability;
a poll ending in a non-success response or transport failure returns false
but retains the previously displayed status unchanged. -/
theorem fetchServerStatus_update (env : PanelEnv) (st : PanelState) :
    (match env.statusResp with
     | FetchResult.ok s =>
       (fetchServerStatus env st).1.serverStatus = some s ∧
         (fetchServerStatus env st).2.1 = s.accessible
     | FetchResult.httpError =>
       (fetchServerStatus env st).1.serverStatus = st.serverStatus ∧
         (fetchServerStatus env st).2.1 = false
     | FetchResult.transportError =>
       (fetchServerStatus env st).1.serverStatus = st.serverStatus ∧
         (fetchServerStatus env st).2.1 = false) := by
  cases hs : env.statusResp <;> simp [fetchServerStatus, hs]

/-! ## Theorems: auth-state-change handler -/

/-- Claim C9: a notification tagged signed-in that carries a user invokes
the provisioning side effect exactly once, with exactly the user id and
account-creation timestamp carried by the session of that notification. -/
theorem onAuthStateChange_provisions_once (isLoading : Bool) (s : AuthSession)
    (u : AuthUser) (h : s.user = some u) :
    (onAuthStateChange isLoading AuthEvent.signedIn (some s)).filter isProvision =
      [AuthEffect.provision u.id u.created_at] := by
  cases isLoading <;>
    simp [onAuthStateChange, isProvision, h, List.filter]

/-- Witness for C9: a concrete signed-in notification yields exactly one
provisioning effect carrying the id and creation timestamp of its user. -/
theorem onAuthStateChange_provisions_once_witness :
    (onAuthStateChange true AuthEvent.signedIn
        (some ⟨some ⟨("user-1"), ("2024-05-01")⟩⟩)).filter isProvision =
      [AuthEffect.provision ("user-1") ("2024-05-01")] :=
  onAuthStateChange_provisions_once true ⟨some ⟨("user-1"), ("2024-05-01")⟩⟩
    ⟨("user-1"), ("2024-05-01")⟩ rfl

/-! ## Theorems: size formatting -/

/-- Claim C8: the size formatter maps 0, 1536 and 1048576 to the expected
strings, and for every byte count falling under the power-of-1024 class
`j` (with `j` inside the four-entry table) the output is the table unit
for `j` together with the scaled value rounded to hundredths: the rounded
numerator `round2Nat b j` is the integer nearest `100 * b / 1024 ^ j`
(half up), as the two division bounds state. -/
theorem formatFileSize_spec :
    formatFileSize 0 = "0 B" ∧
    formatFileSize 1536 = "1.5 KB" ∧
    formatFileSize 1048576 = "1 MB" ∧
    ∀ b j : Nat, j < 4 → 1024 ^ j ≤ b → b < 1024 ^ (j + 1) →
      formatFileSize b =
        renderNum (round2Nat b j) ++ " " ++ sizes.getD j ("undefined") ∧
      2 * 1024 ^ j * round2Nat b j ≤ 200 * b + 1024 ^ j ∧
      200 * b + 1024 ^ j < 2 * 1024 ^ j * (round2Nat b j + 1) := by
  refine ⟨by decide, ?_, ?_, ?_⟩
  · have h : Nat.log 1024 1536 = 1 :=
      Nat.log_eq_of_pow_le_of_lt_pow (by norm_num) (by norm_num)
    rw [formatFileSize.eq_def, h]
    decide
  · have h : Nat.log 1024 1048576 = 2 :=
      Nat.log_eq_of_pow_le_of_lt_pow (by norm_num) (by norm_num)
    rw [formatFileSize.eq_def, h]
    decide
  · intro b j hj hlo hhi
    have hb0 : b ≠ 0 := by
      have : 0 < 1024 ^ j := Nat.pow_pos (by norm_num)
      omega
    have hlog : Nat.log 1024 b = j := Nat.log_eq_of_pow_le_of_lt_pow hlo hhi
    refine ⟨?_, ?_, ?_⟩
    · rw [formatFileSize.eq_def, if_neg hb0, hlog]
    · unfold round2Nat
      have hdm := Nat.div_add_mod (200 * b + 1024 ^ j) (2 * 1024 ^ j)
      calc 2 * 1024 ^ j * ((200 * b + 1024 ^ j) / (2 * 1024 ^ j))
          ≤ 2 * 1024 ^ j * ((200 * b + 1024 ^ j) / (2 * 1024 ^ j)) +
              (200 * b + 1024 ^ j) % (2 * 1024 ^ j) := Nat.le_add_right _ _
        _ = 200 * b + 1024 ^ j := hdm
    · unfold round2Nat
      have hdm := Nat.div_add_mod (200 * b + 1024 ^ j) (2 * 1024 ^ j)
      have hml : (200 * b + 1024 ^ j) % (2 * 1024 ^ j) < 2 * 1024 ^ j :=
        Nat.mod_lt _ (by positivity)
      calc 200 * b + 1024 ^ j
          = 2 * 1024 ^ j * ((200 * b + 1024 ^ j) / (2 * 1024 ^ j)) +
              (200 * b + 1024 ^ j) % (2 * 1024 ^ j) := hdm.symm
        _ < 2 * 1024 ^ j * ((200 * b + 1024 ^ j) / (2 * 1024 ^ j)) +
              2 * 1024 ^ j := Nat.add_lt_add_left hml _
        _ = 2 * 1024 ^ j * ((200 * b + 1024 ^ j) / (2 * 1024 ^ j) + 1) := by
              rw [Nat.mul_add, Nat.mul_one]

/-- Witness for C8: the general clause applied at 1536 bytes in class 1. -/
theorem formatFileSize_spec_witness :
    formatFileSize 1536 =
        renderNum (round2Nat 1536 1) ++ " " ++ sizes.getD 1 ("undefined") ∧
      2 * 1024 ^ 1 * round2Nat 1536 1 ≤ 200 * 1536 + 1024 ^ 1 ∧
      200 * 1536 + 1024 ^ 1 < 2 * 1024 ^ 1 * (round2Nat 1536 1 + 1) :=
  formatFileSize_spec.2.2.2 1536 1 (by decide) (by decide) (by decide)

/-- Claim C10: the unit lookup of the size formatter is in bounds exactly
below the terabyte boundary.  For byte counts from 1 up to but excluding
`1024 ^ 4` the computed index (there equal to `Nat.log 1024 b`) stays
within 0..3 and the output carries the table entry at that index.  At or
above `1024 ^ 4` the exact floor `Nat.log 1024 b` is at least 4 and the
double floor of the source is at least the exact floor, so for every index
the source can compute the table lookup misses and the output carries the
out-of-table text instead of any table unit. -/
theorem formatFileSize_unit_lookup (b : Nat) (hb : 1 ≤ b) :
    (b < 1024 ^ 4 →
      Nat.log 1024 b ≤ 3 ∧
      ∃ u hlt, u = sizes.get ⟨Nat.log 1024 b, hlt⟩ ∧
        formatFileSize b =
          renderNum (round2Nat b (Nat.log 1024 b)) ++ " " ++ u) ∧
    (1024 ^ 4 ≤ b →
      4 ≤ Nat.log 1024 b ∧
      ∀ idx, Nat.log 1024 b ≤ idx →
        sizes.get? idx = none ∧
        sizes.contains ("undefined") = false ∧
        formatFileSizeWithIdx b idx =
          renderNum (round2Nat b idx) ++ " " ++ ("undefined")) := by
  have hb0 : b ≠ 0 := by omega
  constructor
  · intro hlt
    have hle : Nat.log 1024 b ≤ 3 := by
      by_contra hgt
      push_neg at hgt
      have : 1024 ^ 4 ≤ b := (Nat.pow_le_iff_le_log (by norm_num) hb0).mpr hgt
      omega
    have hlen : Nat.log 1024 b < sizes.length := by
      simp only [sizes, List.length_cons, List.length_nil]
      omega
    refine ⟨hle, sizes.get ⟨Nat.log 1024 b, hlen⟩, hlen, rfl, ?_⟩
    rw [formatFileSize.eq_def, if_neg hb0]
    show renderNum (round2Nat b (Nat.log 1024 b)) ++ " " ++
        sizes.getD (Nat.log 1024 b) ("undefined") = _
    rw [List.getD_eq_get?, List.get?_eq_get hlen]
    rfl
  · intro hge
    have hlog : 4 ≤ Nat.log 1024 b :=
      (Nat.pow_le_iff_le_log (by norm_num) hb0).mp hge
    refine ⟨hlog, fun idx hidx => ?_⟩
    have h4 : 4 ≤ idx := le_trans hlog hidx
    have hnone : sizes.get? idx = none := by
      rw [List.get?_eq_none]
      simp only [sizes, List.length_cons, List.length_nil]
      omega
    refine ⟨hnone, by decide, ?_⟩
    rw [formatFileSizeWithIdx.eq_def, if_neg hb0]
    show renderNum (round2Nat b idx) ++ " " ++
        sizes.getD idx ("undefined") = _
    rw [List.getD_eq_get?, hnone]
    rfl

/-- Witness for C10: the in-range clause applied at 5 bytes, and the
out-of-range clause applied at `2 ^ 50 - 1` bytes with index 5 (the index
the double computation of the source produces there, one above the exact
floor 4); the rounded scaled value there renders as "1", matching the
"1 undefined" the source outputs. -/
theorem formatFileSize_unit_lookup_witness :
    (Nat.log 1024 5 ≤ 3 ∧
      ∃ u hlt, u = sizes.get ⟨Nat.log 1024 5, hlt⟩ ∧
        formatFileSize 5 =
          renderNum (round2Nat 5 (Nat.log 1024 5)) ++ " " ++ u) ∧
    (sizes.get? 5 = none ∧
      sizes.contains ("undefined") = false ∧
      formatFileSizeWithIdx (2 ^ 50 - 1) 5 =
        renderNum (round2Nat (2 ^ 50 - 1) 5) ++ " " ++ ("undefined")) ∧
    renderNum (round2Nat (2 ^ 50 - 1) 5) = "1" :=
  ⟨(formatFileSize_unit_lookup 5 (by norm_num)).1 (by norm_num),
   ((formatFileSize_unit_lookup (2 ^ 50 - 1) (by norm_num)).2 (by norm_num)).2 5
     (by
       have h4 : Nat.log 1024 (2 ^ 50 - 1) = 4 :=
         Nat.log_eq_of_pow_le_of_lt_pow (by norm_num) (by norm_num)
       omega),
   by decide⟩
